import Mathlib

/-!
Verification development for `magentic/prompt_function.py`.

The module binds a typed Python function signature and a string template to a
pluggable completion backend.  We give a shallow embedding of the data model
and the operations of the source file:

* `Param`, `bindArgs`, `applyDefaults` embed the `inspect.Signature` argument
  binding used by `BasePromptFunction.format` (restricted to
  positional-or-keyword parameters, which is the parameter kind the claims
  exercise);
* `renderChars` embeds the keyword subset of Python's `str.format` exercised
  by the source (`self._template.format(**bound_args.arguments)`): literal
  text, doubled-brace escapes, and named replacement fields;
* `BasePromptFn`, `BasePromptFunction.init`, the accessor properties, the
  `model` property, and the synchronous / asynchronous `__call__` bodies are
  transcribed field by field, with the completion backend kept as an opaque
  record of functions and the request to it reified as `CompletionRequest`;
* a small list heap models Python list identity and in-place mutation, so
  that the `.copy()` behaviour of the accessor properties is statable.

Python argument values are abstracted by their formatted string (`Value`);
declared callables are abstracted by opaque identifiers (`FuncId`).
-/

/-- A Python value, abstracted by the string `str.format` inserts for it. -/
abbrev Value := String

/-- An opaque identifier standing for a Python callable passed in `functions`. -/
abbrev FuncId := Nat

/-- A Python type annotation: either a non-union type (abstracted by name) or
a union.  Python flattens nested unions at construction, so the members of a
union are always non-union types and are listed by name. -/
inductive Ty where
  | base (name : String)
  | union (members : List String)
deriving DecidableEq, Repr

/-- Modelled from the spec: `split_union_type` lives in `magentic/typing.py`,
outside the sources given here.  The spec says the declared output types are
"derived from the function's return-type annotation (including union types)":
a union annotation yields the list of its member types, any other annotation
yields the singleton list containing it. -/
def split_union_type : Ty → List Ty
  | .union ms => ms.map Ty.base
  | .base n => [Ty.base n]

/-- One parameter of the decorated function's signature: a name and an
optional default value (positional-or-keyword kind). -/
structure Param where
  name : String
  default : Option Value
deriving DecidableEq, Repr

/-- Errors raised by `inspect.Signature.bind` (all `TypeError` in Python). -/
inductive BindError where
  | tooManyPositional
  | multipleValues (name : String)
  | missingRequired (name : String)
  | unexpectedKeyword (name : String)
deriving DecidableEq, Repr

/-- First value bound to a key in an association list. -/
def lookupStr (env : List (String × Value)) (k : String) : Option Value :=
  match env.find? (fun p => p.1 = k) with
  | some p => some p.2
  | none => none

/-- Whether a keyword argument with this name was supplied. -/
def hasKey (kwargs : List (String × Value)) (k : String) : Bool :=
  kwargs.any (fun p => p.1 = k)

/-- Positional phase of `Signature.bind`: pair positional arguments with the
leading parameters in order.  A parameter that receives a positional argument
and also appears among the keyword arguments raises "multiple values"; more
positional arguments than parameters raises "too many positional arguments". -/
def bindPositional (params : List Param) (args : List Value)
    (kwargs : List (String × Value)) : Except BindError (List (String × Value)) :=
  match params, args with
  | _, [] => .ok []
  | [], _ :: _ => .error .tooManyPositional
  | p :: ps, v :: vs =>
    if hasKey kwargs p.name then .error (.multipleValues p.name)
    else (bindPositional ps vs kwargs).map (fun rest => (p.name, v) :: rest)

/-- Keyword phase of `Signature.bind`: each remaining parameter takes its
value from the keyword arguments; a parameter absent from them and without a
default raises "missing a required argument". -/
def bindKeyword (params : List Param)
    (kwargs : List (String × Value)) : Except BindError (List (String × Value)) :=
  match params with
  | [] => .ok []
  | p :: ps =>
    match lookupStr kwargs p.name with
    | some v => (bindKeyword ps kwargs).map (fun rest => (p.name, v) :: rest)
    | none =>
      match p.default with
      | some _ => bindKeyword ps kwargs
      | none => .error (.missingRequired p.name)

/-- Embedding of `inspect.Signature.bind` for positional-or-keyword
parameters: positional phase, keyword phase, then any keyword argument whose
name matches no parameter raises "unexpected keyword argument".  The result
maps each bound parameter name to its value; parameters left to their
defaults are absent (defaults are applied separately, as in the source). -/
def bindArgs (params : List Param) (args : List Value)
    (kwargs : List (String × Value)) : Except BindError (List (String × Value)) := do
  let pos ← bindPositional params args kwargs
  let kw ← bindKeyword (params.drop args.length) kwargs
  match kwargs.find? (fun q => ¬ params.any (fun p => p.name = q.1)) with
  | some q => .error (.unexpectedKeyword q.1)
  | none => .ok (pos ++ kw)

/-- Embedding of `BoundArguments.apply_defaults`: rebuild the bound mapping in
signature order, filling each unbound parameter from its default. -/
def applyDefaults (params : List Param) (bound : List (String × Value)) :
    List (String × Value) :=
  params.filterMap (fun p =>
    match lookupStr bound p.name with
    | some v => some (p.name, v)
    | none => p.default.map (fun d => (p.name, d)))

/-- Errors raised by `str.format` on the modelled subset. -/
inductive FormatError where
  | keyError (name : String)
  | indexError
  | valueError
deriving DecidableEq, Repr

/-- Decidable equality for `Except`, used to evaluate concrete runs. -/
instance {e a : Type} [DecidableEq e] [DecidableEq a] : DecidableEq (Except e a) := fun x y =>
  match x, y with
  | .ok u, .ok v =>
    if h : u = v then .isTrue (by rw [h]) else .isFalse (by simp [h])
  | .error u, .error v =>
    if h : u = v then .isTrue (by rw [h]) else .isFalse (by simp [h])
  | .ok _, .error _ => .isFalse (by simp)
  | .error _, .ok _ => .isFalse (by simp)

/-- The opening brace character, written by code point. -/
def lbrace : Char := Char.ofNat 123

/-- The closing brace character, written by code point. -/
def rbrace : Char := Char.ofNat 125

/-- Embedding of the keyword subset of Python's `str.format` as used by the
source, as a single left-to-right scan.  Outside a replacement field
(`mode = none`) literal characters pass through and a doubled brace escapes
to a single brace; an opening brace enters a field, whose name characters are
collected in `mode = some acc` (in reverse) until the closing brace.  A
completed field is looked up by name in the keyword mapping: an all-digit or
empty field name refers to a positional argument and, since the source
supplies keyword arguments only, raises `IndexError`; a name absent from the
mapping raises `KeyError`; a lone, unclosed or nested brace raises
`ValueError`. -/
def renderChars (env : List (String × Value)) :
    Option (List Char) → List Char → Except FormatError (List Char)
  | none, [] => .ok []
  | some _, [] => .error .valueError
  | none, c :: cs =>
    if c = lbrace then
      match cs with
      | [] => .error .valueError
      | c2 :: cs2 =>
        if c2 = lbrace then (renderChars env none cs2).map (fun r => lbrace :: r)
        else renderChars env (some []) (c2 :: cs2)
    else if c = rbrace then
      match cs with
      | [] => .error .valueError
      | c2 :: cs2 =>
        if c2 = rbrace then (renderChars env none cs2).map (fun r => rbrace :: r)
        else .error .valueError
    else (renderChars env none cs).map (fun r => c :: r)
  | some acc, c :: cs =>
    if c = rbrace then
      let nm := acc.reverse
      if nm.all (fun ch => ch.isDigit) then .error .indexError
      else
        match lookupStr env (String.mk nm) with
        | some v => (renderChars env none cs).map (fun r => v.data ++ r)
        | none => .error (.keyError (String.mk nm))
    else if c = lbrace then .error .valueError
    else renderChars env (some (c :: acc)) cs

/-- Embedding of `template.format(**arguments)` on the modelled subset. -/
def renderTemplate (template : String) (env : List (String × Value)) :
    Except FormatError String :=
  (renderChars env none template.data).map String.mk

/-- A chat message; the source sends a single `UserMessage` per call. -/
inductive ChatMessage where
  | user (content : String)
deriving DecidableEq, Repr

/-- The reified keyword arguments of one `complete` / `acomplete` call:
`messages`, `functions`, `output_types`, `stop`, exactly the four the source
passes. -/
structure CompletionRequest where
  messages : List ChatMessage
  functions : List FuncId
  output_types : List Ty
  stop : Option (List String)
deriving DecidableEq, Repr

/-- The backend's reply message; the call returns its `content` field. -/
structure AssistantMessage (R : Type) where
  content : R

/-- A completion backend (`ChatModel`), opaque except for its two completion
methods.  `complete` is the blocking method, `acomplete` the asynchronous
one (modelled as its result after awaiting). -/
structure ChatModel (R : Type) where
  complete : CompletionRequest → AssistantMessage R
  acomplete : CompletionRequest → AssistantMessage R

/-- Modelled from the spec: `RetryChatModel` lives in
`magentic/chat_model/retry_chat_model.py`, outside the sources given here.
The spec treats retry policy internals as an external collaborator, so the
wrapper is kept purely structural: the wrapped model and the bound. -/
structure RetryChatModel (R : Type) where
  chat_model : ChatModel R
  max_retries : Int

/-- The value of the `model` property: either a chat model used directly or
one wrapped in a `RetryChatModel`. -/
inductive ResolvedModel (R : Type) where
  | direct (m : ChatModel R)
  | retry (r : RetryChatModel R)

/-- Modelled from the spec: retry internals are external, so how a
`RetryChatModel` drives its wrapped model is supplied as a parameter
(`retryImpl`) wherever a resolved model is invoked. -/
def ResolvedModel.completeWith (retryImpl : RetryChatModel R → ChatModel R) :
    ResolvedModel R → CompletionRequest → AssistantMessage R
  | .direct m => m.complete
  | .retry r => (retryImpl r).complete

/-- Asynchronous counterpart of `ResolvedModel.completeWith`. -/
def ResolvedModel.acompleteWith (retryImpl : RetryChatModel R → ChatModel R) :
    ResolvedModel R → CompletionRequest → AssistantMessage R
  | .direct m => m.acomplete
  | .retry r => (retryImpl r).acomplete

/-- The state of a `BasePromptFunction` instance after `__init__`: the
underscored attributes.  `signature` keeps the parameter list (the return
annotation is stored separately), and `returnTypes_` is the precomputed
`list(split_union_type(return_type))`. -/
structure BasePromptFn (R : Type) where
  name : String
  signature : List Param
  returnAnnotation : Ty
  template : String
  functions_ : List FuncId
  stop_ : Option (List String)
  maxRetries : Int
  model_ : Option (ChatModel R)
  returnTypes_ : List Ty

/-- Embedding of `BasePromptFunction.__init__`: store the arguments, with
`functions or []` normalising an absent functions list to the empty list, and
precompute the split of the return annotation. -/
def BasePromptFunction.init (name : String) (parameters : List Param)
    (return_type : Ty) (template : String) (functions : Option (List FuncId))
    (stop : Option (List String)) (max_retries : Int)
    (model : Option (ChatModel R)) : BasePromptFn R :=
  { name := name
    signature := parameters
    returnAnnotation := return_type
    template := template
    functions_ := functions.getD []
    stop_ := stop
    maxRetries := max_retries
    model_ := model
    returnTypes_ := split_union_type return_type }

/-- Embedding of the `functions` property: `self._functions.copy()`.  At the
value level the copy has the same contents; list identity and mutation are
modelled separately in the heap section below. -/
def BasePromptFn.functions (pf : BasePromptFn R) : List FuncId :=
  pf.functions_

/-- Embedding of the `stop` property: `copy.copy(self._stop)`. -/
def BasePromptFn.stop (pf : BasePromptFn R) : Option (List String) :=
  pf.stop_

/-- Embedding of the `return_types` property: `self._return_types.copy()`. -/
def BasePromptFn.return_types (pf : BasePromptFn R) : List Ty :=
  pf.returnTypes_

/-- Embedding of the `model` property: when `self._max_retries` is truthy
(non-zero), wrap `self._model or get_chat_model()` in a `RetryChatModel`
carrying `self._max_retries`; otherwise return `self._model or
get_chat_model()` directly.  The globally configured model returned by
`get_chat_model()` (external to the sources given here) is a parameter. -/
def BasePromptFn.model (pf : BasePromptFn R) (globalModel : ChatModel R) :
    ResolvedModel R :=
  if pf.maxRetries ≠ 0 then
    .retry { chat_model := pf.model_.getD globalModel
             max_retries := pf.maxRetries }
  else
    .direct (pf.model_.getD globalModel)

/-- Errors a call can raise before reaching the backend. -/
inductive CallError where
  | typeError (e : BindError)
  | formatError (e : FormatError)
deriving DecidableEq, Repr

/-- Embedding of `BasePromptFunction.format`: bind the call arguments against
the stored signature, apply defaults, and substitute them into the template. -/
def BasePromptFunction.formatFn (pf : BasePromptFn R) (args : List Value)
    (kwargs : List (String × Value)) : Except CallError String :=
  match bindArgs pf.signature args kwargs with
  | .error e => .error (.typeError e)
  | .ok bound =>
    match renderTemplate pf.template (applyDefaults pf.signature bound) with
    | .error e => .error (.formatError e)
    | .ok s => .ok s

/-- Embedding of `PromptFunction.__call__`.  The `logfire.span` context
manager first evaluates `self._signature.bind(*args, **kwargs).arguments`, so
a binding failure raises before anything else happens; then one `complete`
call is issued on `self.model` with a single rendered `UserMessage`, the
internal functions list, the internal output types, and the internal stop
list, and the reply message's `content` is returned.  The first component of
the result lists the completion requests issued during the call, in order. -/
def PromptFunction.call (pf : BasePromptFn R) (globalModel : ChatModel R)
    (retryImpl : RetryChatModel R → ChatModel R) (args : List Value)
    (kwargs : List (String × Value)) :
    List CompletionRequest × Except CallError R :=
  match bindArgs pf.signature args kwargs with
  | .error e => ([], .error (.typeError e))
  | .ok _ =>
    match BasePromptFunction.formatFn pf args kwargs with
    | .error e => ([], .error e)
    | .ok text =>
      let req : CompletionRequest :=
        { messages := [ChatMessage.user text]
          functions := pf.functions_
          output_types := pf.returnTypes_
          stop := pf.stop_ }
      let message := (pf.model globalModel).completeWith retryImpl req
      ([req], .ok message.content)

/-- Embedding of `AsyncPromptFunction.__call__`: identical to the synchronous
call except that the awaited `acomplete` method is used. -/
def AsyncPromptFunction.call (pf : BasePromptFn R) (globalModel : ChatModel R)
    (retryImpl : RetryChatModel R → ChatModel R) (args : List Value)
    (kwargs : List (String × Value)) :
    List CompletionRequest × Except CallError R :=
  match bindArgs pf.signature args kwargs with
  | .error e => ([], .error (.typeError e))
  | .ok _ =>
    match BasePromptFunction.formatFn pf args kwargs with
    | .error e => ([], .error e)
    | .ok text =>
      let req : CompletionRequest :=
        { messages := [ChatMessage.user text]
          functions := pf.functions_
          output_types := pf.returnTypes_
          stop := pf.stop_ }
      let message := (pf.model globalModel).acompleteWith retryImpl req
      ([req], .ok message.content)

/-- A decorated Python function as the `prompt` decorator sees it: its
`__name__`, its signature's parameters and return annotation, and whether
`inspect.iscoroutinefunction` holds of it. -/
structure PyFunc where
  name : String
  params : List Param
  returnAnnotation : Ty
  isCoroutineFunction : Bool
deriving Repr

/-- The decorator's result: an `AsyncPromptFunction` or a `PromptFunction`,
both carrying `BasePromptFn` state.  `update_wrapper` only copies metadata
attributes such as `__name__` onto the instance and is not modelled. -/
inductive DecoratedPromptFunction (R : Type) where
  | async (pf : BasePromptFn R)
  | sync (pf : BasePromptFn R)

/-- Embedding of the decorator returned by `prompt(template, functions, stop,
max_retries, model)`: a coroutine function becomes an `AsyncPromptFunction`
and any other function a `PromptFunction`, each built from the decorated
function's name, parameters and return annotation together with the
decorator's arguments. -/
def prompt (template : String) (functions : Option (List FuncId))
    (stop : Option (List String)) (max_retries : Int)
    (model : Option (ChatModel R)) (func : PyFunc) : DecoratedPromptFunction R :=
  if func.isCoroutineFunction then
    .async (BasePromptFunction.init func.name func.params func.returnAnnotation
      template functions stop max_retries model)
  else
    .sync (BasePromptFunction.init func.name func.params func.returnAnnotation
      template functions stop max_retries model)

/-- A heap of Python list objects with element type `α`: addresses are
indices into the cell store, and allocation appends a fresh cell. -/
structure Heap (α : Type) where
  cells : List (List α)

/-- Contents of the list object at an address. -/
def Heap.read (h : Heap α) (a : Nat) : List α :=
  h.cells[a]?.getD []

/-- Allocate a fresh list object holding `v`; its address is returned. -/
def Heap.alloc (h : Heap α) (v : List α) : Heap α × Nat :=
  ({ cells := h.cells ++ [v] }, h.cells.length)

/-- In-place mutation of the list object at an address. -/
def Heap.write (h : Heap α) (a : Nat) (v : List α) : Heap α :=
  { cells := h.cells.set a v }

/-- An address is valid when it points into the store. -/
abbrev Heap.valid (h : Heap α) (a : Nat) : Prop :=
  a < h.cells.length

/-- Python's `list.copy()`: allocate a fresh list with the same contents. -/
def Heap.listCopy (h : Heap α) (a : Nat) : Heap α × Nat :=
  h.alloc (h.read a)

/-- The heap-backed state of a prompt function's three copied attributes:
`self._functions` (callable ids), `self._stop` (strings, or `None`), and
`self._return_types`.  Each list attribute is an address into its heap. -/
structure PromptFnHeapState where
  funHeap : Heap FuncId
  strHeap : Heap String
  tyHeap : Heap Ty
  functionsAddr : Nat
  stopAddr : Option Nat
  returnTypesAddr : Nat

/-- Heap-level embedding of the `functions` property:
`return self._functions.copy()`. -/
def PromptFnHeapState.functionsProp (s : PromptFnHeapState) :
    PromptFnHeapState × Nat :=
  ({ s with funHeap := (s.funHeap.listCopy s.functionsAddr).1 },
   (s.funHeap.listCopy s.functionsAddr).2)

/-- Heap-level embedding of the `stop` property: `return
copy.copy(self._stop)`; copying `None` yields `None`, copying a list
allocates a fresh list with the same contents. -/
def PromptFnHeapState.stopProp (s : PromptFnHeapState) :
    PromptFnHeapState × Option Nat :=
  match s.stopAddr with
  | none => (s, none)
  | some a =>
    ({ s with strHeap := (s.strHeap.listCopy a).1 }, some (s.strHeap.listCopy a).2)

/-- Heap-level embedding of the `return_types` property:
`return self._return_types.copy()`. -/
def PromptFnHeapState.returnTypesProp (s : PromptFnHeapState) :
    PromptFnHeapState × Nat :=
  ({ s with tyHeap := (s.tyHeap.listCopy s.returnTypesAddr).1 },
   (s.tyHeap.listCopy s.returnTypesAddr).2)

/-- A template segment, for stating the substitution property: literal text
or a named placeholder. -/
inductive Segment where
  | lit (s : List Char)
  | field (name : String)

/-- The characters a segment contributes to the template string. -/
def Segment.chars : Segment → List Char
  | .lit s => s
  | .field n => lbrace :: (n.data ++ [rbrace])

/-- The template string built from a list of segments. -/
def templateOfSegments : List Segment → List Char
  | [] => []
  | sg :: rest => sg.chars ++ templateOfSegments rest

/-- Keyword substitution into segments: literal text is unchanged and each
placeholder is replaced by the value bound to its name. -/
def substSegments (env : List (String × Value)) : List Segment → List Char
  | [] => []
  | Segment.lit l :: rest => l ++ substSegments env rest
  | Segment.field n :: rest =>
    ((lookupStr env n).getD "").data ++ substSegments env rest

/-- Wellformedness of a segment with respect to an environment: literal text
holds no brace, and a placeholder's name is a brace-free identifier (not all
digits) bound in the environment. -/
def Segment.wfB (env : List (String × Value)) : Segment → Bool
  | .lit l => l.all (fun c => c != lbrace && c != rbrace)
  | .field n => (!(n.data.all (fun c => c.isDigit)))
      && n.data.all (fun c => c != lbrace && c != rbrace)
      && (lookupStr env n).isSome

def unitModel : ChatModel Unit :=
  { complete := fun _ => { content := () }
    acomplete := fun _ => { content := () } }

def natModel : ChatModel Nat :=
  { complete := fun req => { content := req.messages.length }
    acomplete := fun req => { content := req.messages.length } }

def sampleHeapState : PromptFnHeapState :=
  { funHeap := { cells := [[1, 2]] }
    strHeap := { cells := [["quit"]] }
    tyHeap := { cells := [[Ty.base "int"]] }
    functionsAddr := 0
    stopAddr := some 0
    returnTypesAddr := 0 }

theorem Heap.listCopy_addr_ne (h : Heap α) {a : Nat} (hv : h.valid a) :
    (h.listCopy a).2 ≠ a := by
  simp only [Heap.listCopy, Heap.alloc, Heap.valid] at *
  omega

theorem Heap.read_listCopy_old (h : Heap α) {b : Nat} (hb : h.valid b)
    (a : Nat) : (h.listCopy a).1.read b = h.read b := by
  simp only [Heap.listCopy, Heap.alloc, Heap.read, Heap.valid] at *
  rw [List.getElem?_append_left hb]

theorem Heap.read_listCopy_new (h : Heap α) (a : Nat) :
    (h.listCopy a).1.read (h.listCopy a).2 = h.read a := by
  simp only [Heap.listCopy, Heap.alloc, Heap.read]
  rw [List.getElem?_append_right (Nat.le_refl _)]
  simp

theorem Heap.read_write_ne (h : Heap α) {a b : Nat} (hab : a ≠ b) (v : List α) :
    (h.write b v).read a = h.read a := by
  simp only [Heap.write, Heap.read]
  rw [List.getElem?_set_ne (by omega)]

theorem promptCall_eq_of_ok {R : Type} (pf : BasePromptFn R)
    (gm : ChatModel R) (retryImpl : RetryChatModel R → ChatModel R)
    (args : List Value) (kwargs : List (String × Value))
    {bound : List (String × Value)} {text : String}
    (hb : bindArgs pf.signature args kwargs = .ok bound)
    (hf : BasePromptFunction.formatFn pf args kwargs = .ok text) :
    PromptFunction.call pf gm retryImpl args kwargs =
      ([{ messages := [ChatMessage.user text], functions := pf.functions_,
          output_types := pf.returnTypes_, stop := pf.stop_ }],
        .ok ((pf.model gm).completeWith retryImpl
          { messages := [ChatMessage.user text], functions := pf.functions_,
            output_types := pf.returnTypes_, stop := pf.stop_ }).content) := by
  simp only [PromptFunction.call, hb, hf]

theorem promptCall_eq_of_error {R : Type} (pf : BasePromptFn R)
    (gm : ChatModel R) (retryImpl : RetryChatModel R → ChatModel R)
    (args : List Value) (kwargs : List (String × Value)) {e : CallError}
    (hf : BasePromptFunction.formatFn pf args kwargs = .error e) :
    PromptFunction.call pf gm retryImpl args kwargs = ([], .error e) := by
  rcases hb : bindArgs pf.signature args kwargs with e2 | bound
  · rw [BasePromptFunction.formatFn, hb] at hf
    simp only [Except.error.injEq] at hf
    subst hf
    simp only [PromptFunction.call, hb]
  · simp only [PromptFunction.call, hb, hf]

theorem asyncCall_eq_of_ok {R : Type} (pf : BasePromptFn R)
    (gm : ChatModel R) (retryImpl : RetryChatModel R → ChatModel R)
    (args : List Value) (kwargs : List (String × Value))
    {bound : List (String × Value)} {text : String}
    (hb : bindArgs pf.signature args kwargs = .ok bound)
    (hf : BasePromptFunction.formatFn pf args kwargs = .ok text) :
    AsyncPromptFunction.call pf gm retryImpl args kwargs =
      ([{ messages := [ChatMessage.user text], functions := pf.functions_,
          output_types := pf.returnTypes_, stop := pf.stop_ }],
        .ok ((pf.model gm).acompleteWith retryImpl
          { messages := [ChatMessage.user text], functions := pf.functions_,
            output_types := pf.returnTypes_, stop := pf.stop_ }).content) := by
  simp only [AsyncPromptFunction.call, hb, hf]

theorem asyncCall_eq_of_error {R : Type} (pf : BasePromptFn R)
    (gm : ChatModel R) (retryImpl : RetryChatModel R → ChatModel R)
    (args : List Value) (kwargs : List (String × Value)) {e : CallError}
    (hf : BasePromptFunction.formatFn pf args kwargs = .error e) :
    AsyncPromptFunction.call pf gm retryImpl args kwargs = ([], .error e) := by
  rcases hb : bindArgs pf.signature args kwargs with e2 | bound
  · rw [BasePromptFunction.formatFn, hb] at hf
    simp only [Except.error.injEq] at hf
    subst hf
    simp only [AsyncPromptFunction.call, hb]
  · simp only [AsyncPromptFunction.call, hb, hf]

theorem renderChars_lit (env : List (String × Value)) (l rest : List Char)
    (hl : ∀ c ∈ l, c ≠ lbrace ∧ c ≠ rbrace) :
    renderChars env none (l ++ rest)
      = (renderChars env none rest).map (fun r => l ++ r) := by
  induction l with
  | nil =>
    cases hres : renderChars env none rest <;> simp [hres, Except.map]
  | cons c cs ih =>
    have hc := hl c (by simp)
    rw [List.cons_append, renderChars.eq_def]
    simp only [if_neg hc.1, if_neg hc.2]
    rw [ih (fun d hd => hl d (by simp [hd]))]
    cases hres : renderChars env none rest <;> simp [hres, Except.map]

theorem renderChars_field_scan (env : List (String × Value)) (rest : List Char) :
    ∀ (nmTail acc : List Char), (∀ c ∈ nmTail, c ≠ lbrace ∧ c ≠ rbrace) →
    renderChars env (some acc) (nmTail ++ rbrace :: rest)
      = (if (acc.reverse ++ nmTail).all (fun ch => ch.isDigit) then
           .error .indexError
         else
           match lookupStr env (String.mk (acc.reverse ++ nmTail)) with
           | some v => (renderChars env none rest).map (fun r => v.data ++ r)
           | none => .error (.keyError (String.mk (acc.reverse ++ nmTail)))) := by
  intro nmTail
  induction nmTail with
  | nil =>
    intro acc hwf
    rw [List.nil_append, renderChars.eq_def]
    simp only [if_pos rfl]
    simp
  | cons c cs ih =>
    intro acc hwf
    have hc := hwf c (by simp)
    rw [List.cons_append, renderChars.eq_def]
    simp only [if_neg hc.2, if_neg hc.1]
    rw [ih (c :: acc) (fun d hd => hwf d (by simp [hd]))]
    simp [List.reverse_cons, List.append_assoc]

theorem renderChars_field (env : List (String × Value)) (n : String)
    (rest : List Char) (v : Value)
    (hd : (n.data.all (fun c => c.isDigit)) = false)
    (hnb : ∀ c ∈ n.data, c ≠ lbrace ∧ c ≠ rbrace)
    (hv : lookupStr env n = some v) :
    renderChars env none (lbrace :: (n.data ++ rbrace :: rest))
      = (renderChars env none rest).map (fun r => v.data ++ r) := by
  rcases hnd : n.data with - | ⟨d, ds⟩
  · rw [hnd] at hd
    simp at hd
  · have hmk : String.mk (d :: ds) = n := by
      rw [← hnd]
    have hdns : d ≠ lbrace ∧ d ≠ rbrace := hnb d (by rw [hnd]; simp)
    rw [hnd] at hd
    rw [List.cons_append, renderChars.eq_def]
    simp only [if_pos rfl, if_neg hdns.1]
    rw [if_pos trivial]
    rw [← List.cons_append,
        renderChars_field_scan env rest (d :: ds) []
          (fun c hc => hnb c (by rw [hnd]; exact hc))]
    rw [List.reverse_nil, List.nil_append, hmk, hv]
    rw [if_neg (by rw [hd]; exact Bool.false_ne_true)]

theorem renderChars_segments (env : List (String × Value)) (segs : List Segment)
    (h : ∀ sg ∈ segs, Segment.wfB env sg = true) :
    renderChars env none (templateOfSegments segs)
      = .ok (substSegments env segs) := by
  induction segs with
  | nil => rfl
  | cons sg rest ih =>
    have hsg := h sg (by simp)
    have hrest := ih (fun x hx => h x (by simp [hx]))
    cases sg with
    | lit l =>
      have hl : ∀ c ∈ l, c ≠ lbrace ∧ c ≠ rbrace := by
        simp only [Segment.wfB, List.all_eq_true, Bool.and_eq_true,
          bne_iff_ne] at hsg
        exact hsg
      rw [templateOfSegments, Segment.chars, renderChars_lit env l _ hl, hrest]
      rfl
    | field n =>
      simp only [Segment.wfB, Bool.and_eq_true, Bool.not_eq_true',
        Option.isSome_iff_exists] at hsg
      obtain ⟨⟨hd, hnb⟩, v, hv⟩ := hsg
      have hnb' : ∀ c ∈ n.data, c ≠ lbrace ∧ c ≠ rbrace := by
        simp only [List.all_eq_true, Bool.and_eq_true, bne_iff_ne] at hnb
        exact hnb
      rw [templateOfSegments, Segment.chars, List.cons_append,
        List.append_assoc, List.singleton_append,
        renderChars_field env n _ v hd hnb' hv, hrest]
      rw [substSegments, hv]
      rfl

/-- Claim C1: for a prompt function declared with a given template,
functions, stop list and return annotation, every call whose arguments bind
against the declared signature (and whose template therefore renders, which
presupposes the template's placeholders are parameter names) sends exactly
one user message containing the rendered template to the completion backend,
together with the declared functions, the declared output types (the split of
the return annotation) and the declared stop list, and returns the backend
reply message's `content` unchanged as the call's result. -/
theorem promptFunction_call_sends_rendered_request {R : Type} (name : String)
    (params : List Param) (rt : Ty) (tpl : String) (fns : Option (List FuncId))
    (stop : Option (List String)) (mr : Int) (m : Option (ChatModel R))
    (gm : ChatModel R) (retryImpl : RetryChatModel R → ChatModel R)
    (args : List Value) (kwargs : List (String × Value))
    (bound : List (String × Value)) (text : String)
    (hb : bindArgs params args kwargs = .ok bound)
    (hf : BasePromptFunction.formatFn
      (BasePromptFunction.init name params rt tpl fns stop mr m) args kwargs
        = .ok text) :
    PromptFunction.call (BasePromptFunction.init name params rt tpl fns stop mr m)
        gm retryImpl args kwargs
      = ([{ messages := [ChatMessage.user text],
            functions := fns.getD [],
            output_types := split_union_type rt,
            stop := stop }],
         .ok (((BasePromptFunction.init name params rt tpl fns stop mr m).model
              gm).completeWith retryImpl
            { messages := [ChatMessage.user text],
              functions := fns.getD [],
              output_types := split_union_type rt,
              stop := stop }).content) :=
  promptCall_eq_of_ok
    (BasePromptFunction.init name params rt tpl fns stop mr m)
    gm retryImpl args kwargs hb hf

theorem promptFunction_call_sends_rendered_request_witness :
    bindArgs [{ name := "a", default := none }] ["world"] []
      = .ok [("a", "world")]
    ∧ BasePromptFunction.formatFn
        (BasePromptFunction.init (R := Nat) "f" [{ name := "a", default := none }]
          (Ty.base "str") (String.mk (['h', 'i', ' ', lbrace, 'a', rbrace]))
          (some [7]) (some ["quit"]) 0 none)
        ["world"] []
      = .ok "hi world"
    ∧ PromptFunction.call
        (BasePromptFunction.init (R := Nat) "f" [{ name := "a", default := none }]
          (Ty.base "str") (String.mk (['h', 'i', ' ', lbrace, 'a', rbrace]))
          (some [7]) (some ["quit"]) 0 none)
        natModel (fun r => r.chat_model) ["world"] []
      = ([{ messages := [ChatMessage.user "hi world"],
            functions := (some [7]).getD [],
            output_types := split_union_type (Ty.base "str"),
            stop := some ["quit"] }],
         .ok (((BasePromptFunction.init (R := Nat) "f"
              [{ name := "a", default := none }]
              (Ty.base "str") (String.mk (['h', 'i', ' ', lbrace, 'a', rbrace]))
              (some [7]) (some ["quit"]) 0 none).model natModel).completeWith
            (fun r => r.chat_model)
            { messages := [ChatMessage.user "hi world"],
              functions := (some [7]).getD [],
              output_types := split_union_type (Ty.base "str"),
              stop := some ["quit"] }).content) :=
  ⟨by decide, by decide,
   promptFunction_call_sends_rendered_request "f"
     [{ name := "a", default := none }] (Ty.base "str")
     (String.mk (['h', 'i', ' ', lbrace, 'a', rbrace])) (some [7])
     (some ["quit"]) 0 none natModel (fun r => r.chat_model) ["world"] []
     [("a", "world")] "hi world" (by decide) (by decide)⟩

/-- Claim C2: for every argument tuple, an `AsyncPromptFunction` call forwards
exactly the same completion requests (rendered prompt, functions list, output
types and stop list) as the corresponding `PromptFunction` call, and it fails
in the same way on the same inputs; when the resolved model's awaited
`acomplete` behaves like its blocking `complete`, the two calls agree
entirely, returning the reply's content the same way — the only difference is
which completion method is invoked. -/
theorem asyncPromptFunction_call_mirrors_sync {R : Type} (pf : BasePromptFn R)
    (gm : ChatModel R) (retryImpl : RetryChatModel R → ChatModel R)
    (args : List Value) (kwargs : List (String × Value)) :
    (AsyncPromptFunction.call pf gm retryImpl args kwargs).1
      = (PromptFunction.call pf gm retryImpl args kwargs).1
    ∧ (∀ e, (AsyncPromptFunction.call pf gm retryImpl args kwargs).2 = .error e
        ↔ (PromptFunction.call pf gm retryImpl args kwargs).2 = .error e)
    ∧ ((∀ req, (pf.model gm).acompleteWith retryImpl req
          = (pf.model gm).completeWith retryImpl req) →
        AsyncPromptFunction.call pf gm retryImpl args kwargs
          = PromptFunction.call pf gm retryImpl args kwargs) := by
  rcases hf : BasePromptFunction.formatFn pf args kwargs with e | text
  · rw [asyncCall_eq_of_error pf gm retryImpl args kwargs hf,
        promptCall_eq_of_error pf gm retryImpl args kwargs hf]
    exact ⟨rfl, fun _ => Iff.rfl, fun _ => rfl⟩
  · rcases hb : bindArgs pf.signature args kwargs with e | bound
    · rw [BasePromptFunction.formatFn, hb] at hf
      simp at hf
    · rw [asyncCall_eq_of_ok pf gm retryImpl args kwargs hb hf,
          promptCall_eq_of_ok pf gm retryImpl args kwargs hb hf]
      refine ⟨rfl, fun e2 => by simp, fun hsame => ?_⟩
      rw [hsame]

theorem asyncPromptFunction_call_mirrors_sync_witness :
    (∀ req, ((BasePromptFunction.init (R := Nat) "f" [] (Ty.base "int") "t"
        none none 0 none).model natModel).acompleteWith (fun r => r.chat_model) req
      = ((BasePromptFunction.init (R := Nat) "f" [] (Ty.base "int") "t"
        none none 0 none).model natModel).completeWith (fun r => r.chat_model) req)
    ∧ AsyncPromptFunction.call
        (BasePromptFunction.init (R := Nat) "f" [] (Ty.base "int") "t"
          none none 0 none)
        natModel (fun r => r.chat_model) [] []
      = PromptFunction.call
        (BasePromptFunction.init (R := Nat) "f" [] (Ty.base "int") "t"
          none none 0 none)
        natModel (fun r => r.chat_model) [] [] :=
  ⟨fun _ => rfl,
   (asyncPromptFunction_call_mirrors_sync
      (BasePromptFunction.init (R := Nat) "f" [] (Ty.base "int") "t"
        none none 0 none)
      natModel (fun r => r.chat_model) [] []).2.2 (fun _ => rfl)⟩

/-- Claim C3: the declared set of acceptable output types passed to the
backend is derived from the return-type annotation: a union annotation
yields the list of the union's member types, and a non-union annotation
yields the singleton list containing that annotation. -/
theorem return_types_split_of_return_type {R : Type} (name : String)
    (params : List Param) (rt : Ty) (tpl : String)
    (fns : Option (List FuncId)) (stop : Option (List String)) (mr : Int)
    (m : Option (ChatModel R)) :
    (∀ ms, rt = Ty.union ms →
      (BasePromptFunction.init name params rt tpl fns stop mr m).return_types
        = ms.map Ty.base) ∧
    (∀ n, rt = Ty.base n →
      (BasePromptFunction.init name params rt tpl fns stop mr m).return_types
        = [Ty.base n]) := by
  constructor
  · intro ms hms
    subst hms
    simp [BasePromptFunction.init, BasePromptFn.return_types, split_union_type]
  · intro n hn
    subst hn
    simp [BasePromptFunction.init, BasePromptFn.return_types, split_union_type]

theorem return_types_split_of_return_type_witness :
    (BasePromptFunction.init (R := Unit) "f" [] (Ty.union ["int", "str"]) "t"
      none none 0 none).return_types = [Ty.base "int", Ty.base "str"] :=
  (return_types_split_of_return_type "f" [] (Ty.union ["int", "str"]) "t"
    none none 0 none).1 ["int", "str"] rfl

/-- Claim C4: when a prompt function is declared with `max_retries` greater
than zero, the `model` property wraps the configured chat model (the declared
one, or the globally configured one when none was declared) in a
`RetryChatModel` carrying exactly that bound; when `max_retries` is zero, the
property returns the configured chat model directly with no wrapper. -/
theorem model_retry_wrapping {R : Type} (name : String) (params : List Param)
    (rt : Ty) (tpl : String) (fns : Option (List FuncId))
    (stop : Option (List String)) (mr : Int) (m : Option (ChatModel R))
    (gm : ChatModel R) :
    (0 < mr →
      (BasePromptFunction.init name params rt tpl fns stop mr m).model gm
        = .retry { chat_model := m.getD gm, max_retries := mr }) ∧
    (mr = 0 →
      (BasePromptFunction.init name params rt tpl fns stop mr m).model gm
        = .direct (m.getD gm)) ∧
    (mr = 0 → m = none →
      (BasePromptFunction.init name params rt tpl fns stop mr m).model gm
        = .direct gm) := by
  refine ⟨fun hmr => ?_, fun hmr => ?_, fun hmr hm => ?_⟩
  · simp [BasePromptFunction.init, BasePromptFn.model]
    omega
  · simp [BasePromptFunction.init, BasePromptFn.model, hmr]
  · subst hm
    simp [BasePromptFunction.init, BasePromptFn.model, hmr]

theorem model_retry_wrapping_witness :
    ((0 : Int) < 3 ∧
      (BasePromptFunction.init (R := Unit) "f" [] (Ty.base "str") "t"
        none none 3 none).model unitModel
        = .retry { chat_model := unitModel, max_retries := 3 }) ∧
    (BasePromptFunction.init (R := Unit) "f" [] (Ty.base "str") "t"
        none none 0 none).model unitModel = .direct unitModel :=
  ⟨⟨by decide,
    (model_retry_wrapping "f" [] (Ty.base "str") "t" none none 3 none
      unitModel).1 (by decide)⟩,
   (model_retry_wrapping "f" [] (Ty.base "str") "t" none none 0 none
      unitModel).2.2 rfl rfl⟩

/-- Claim C5: for every argument tuple that binds against the declared
signature, `format` returns the template string with each keyword placeholder
replaced by the value bound to the parameter of that name, after defaults
have been applied for omitted parameters; substitution is keyword
substitution on parameter names only (the template is any interleaving of
brace-free literal text and named placeholders bound in the defaulted
binding, and nothing else is interpreted). -/
theorem format_keyword_substitution {R : Type} (pf : BasePromptFn R)
    (args : List Value) (kwargs : List (String × Value))
    (bound : List (String × Value)) (segs : List Segment)
    (hb : bindArgs pf.signature args kwargs = .ok bound)
    (htpl : pf.template = String.mk (templateOfSegments segs))
    (hwf : ∀ sg ∈ segs,
      Segment.wfB (applyDefaults pf.signature bound) sg = true) :
    BasePromptFunction.formatFn pf args kwargs
      = .ok (String.mk
          (substSegments (applyDefaults pf.signature bound) segs)) := by
  rw [BasePromptFunction.formatFn]
  simp only [hb]
  rw [renderTemplate, htpl]
  rw [renderChars_segments (applyDefaults pf.signature bound) segs hwf]
  rfl

theorem format_keyword_substitution_witness :
    bindArgs [{ name := "a", default := none },
        { name := "b", default := some "two" }] ["one"] []
      = .ok [("a", "one")]
    ∧ BasePromptFunction.formatFn
        (BasePromptFunction.init (R := Nat) "f"
          [{ name := "a", default := none },
           { name := "b", default := some "two" }]
          (Ty.base "str")
          (String.mk (templateOfSegments
            [Segment.field "a", Segment.lit [' ', '>', ' '],
             Segment.field "b"]))
          none none 0 none)
        ["one"] []
      = .ok (String.mk (substSegments
          (applyDefaults
            [{ name := "a", default := none },
             { name := "b", default := some "two" }] [("a", "one")])
          [Segment.field "a", Segment.lit [' ', '>', ' '],
           Segment.field "b"])) :=
  ⟨by decide,
   format_keyword_substitution
     (BasePromptFunction.init (R := Nat) "f"
       [{ name := "a", default := none },
        { name := "b", default := some "two" }]
       (Ty.base "str")
       (String.mk (templateOfSegments
         [Segment.field "a", Segment.lit [' ', '>', ' '],
          Segment.field "b"]))
       none none 0 none)
     ["one"] [] [("a", "one")]
     [Segment.field "a", Segment.lit [' ', '>', ' '], Segment.field "b"]
     (by decide) rfl (by decide)⟩

/-- Claim C6: when the call arguments do not bind against the declared
signature (too many positional arguments, an unknown keyword, a parameter
given multiple values, or a missing required parameter), both the synchronous
and the asynchronous call fail with the binding error and issue no completion
request, so the backend is never contacted. -/
theorem bind_failure_no_backend_request {R : Type} (pf : BasePromptFn R)
    (gm : ChatModel R) (retryImpl : RetryChatModel R → ChatModel R)
    (args : List Value) (kwargs : List (String × Value)) (e : BindError)
    (hb : bindArgs pf.signature args kwargs = .error e) :
    PromptFunction.call pf gm retryImpl args kwargs
      = ([], .error (.typeError e))
    ∧ AsyncPromptFunction.call pf gm retryImpl args kwargs
      = ([], .error (.typeError e)) := by
  constructor
  · simp only [PromptFunction.call, hb]
  · simp only [AsyncPromptFunction.call, hb]

theorem bind_failure_no_backend_request_witness :
    bindArgs (BasePromptFunction.init (R := Unit) "f"
        [{ name := "a", default := none }] (Ty.base "str") "t"
        none none 0 none).signature [] [("b", "1")]
      = .error (.missingRequired "a")
    ∧ PromptFunction.call
        (BasePromptFunction.init (R := Unit) "f"
          [{ name := "a", default := none }] (Ty.base "str") "t"
          none none 0 none)
        unitModel (fun r => r.chat_model) [] [("b", "1")]
      = ([], .error (.typeError (.missingRequired "a"))) :=
  ⟨by decide,
   (bind_failure_no_backend_request
      (BasePromptFunction.init (R := Unit) "f"
        [{ name := "a", default := none }] (Ty.base "str") "t"
        none none 0 none)
      unitModel (fun r => r.chat_model) [] [("b", "1")]
      (.missingRequired "a") (by decide)).1⟩

/-- Claim C7: each successful invocation, synchronous or asynchronous, issues
exactly one completion request to its model; no second request and no
concurrent requests occur within a single call. -/
theorem successful_call_single_request {R : Type} (pf : BasePromptFn R)
    (gm : ChatModel R) (retryImpl : RetryChatModel R → ChatModel R)
    (args : List Value) (kwargs : List (String × Value)) (r : R) :
    ((PromptFunction.call pf gm retryImpl args kwargs).2 = .ok r →
      (PromptFunction.call pf gm retryImpl args kwargs).1.length = 1)
    ∧ ((AsyncPromptFunction.call pf gm retryImpl args kwargs).2 = .ok r →
      (AsyncPromptFunction.call pf gm retryImpl args kwargs).1.length = 1) := by
  constructor
  · intro hok
    rcases hf : BasePromptFunction.formatFn pf args kwargs with e | text
    · rw [promptCall_eq_of_error pf gm retryImpl args kwargs hf] at hok
      simp at hok
    · rcases hb : bindArgs pf.signature args kwargs with e | bound
      · rw [BasePromptFunction.formatFn, hb] at hf
        simp at hf
      · rw [promptCall_eq_of_ok pf gm retryImpl args kwargs hb hf]
        rfl
  · intro hok
    rcases hf : BasePromptFunction.formatFn pf args kwargs with e | text
    · rw [asyncCall_eq_of_error pf gm retryImpl args kwargs hf] at hok
      simp at hok
    · rcases hb : bindArgs pf.signature args kwargs with e | bound
      · rw [BasePromptFunction.formatFn, hb] at hf
        simp at hf
      · rw [asyncCall_eq_of_ok pf gm retryImpl args kwargs hb hf]
        rfl

theorem successful_call_single_request_witness :
    (PromptFunction.call
        (BasePromptFunction.init (R := Unit) "f" [] (Ty.base "str") "t"
          none none 0 none)
        unitModel (fun r => r.chat_model) [] []).2 = .ok ()
    ∧ (PromptFunction.call
        (BasePromptFunction.init (R := Unit) "f" [] (Ty.base "str") "t"
          none none 0 none)
        unitModel (fun r => r.chat_model) [] []).1.length = 1 :=
  ⟨by decide,
   (successful_call_single_request
      (BasePromptFunction.init (R := Unit) "f" [] (Ty.base "str") "t"
        none none 0 none)
      unitModel (fun r => r.chat_model) [] [] ()).1 (by decide)⟩

/-- Claim C8: the accessor properties `functions`, `stop` and `return_types`
each return a copy of the internal list: the copy is a distinct list object
whose contents equal the internal list's, and in-place mutation of the
returned copy leaves the internal list unchanged, so a later read of the same
property (and every later call, which reads the internal list) still sees the
originally declared values.  The `stop` property copies only when the
internal stop is not `None`. -/
theorem accessor_copies_isolated (s : PromptFnHeapState)
    (hfv : s.funHeap.valid s.functionsAddr)
    (htv : s.tyHeap.valid s.returnTypesAddr) :
    (s.functionsProp.2 ≠ s.functionsAddr
      ∧ s.functionsProp.1.funHeap.read s.functionsProp.2
          = s.funHeap.read s.functionsAddr
      ∧ (∀ v : List FuncId,
          (s.functionsProp.1.funHeap.write s.functionsProp.2 v).read
              s.functionsAddr
            = s.funHeap.read s.functionsAddr)
      ∧ (∀ v : List FuncId,
          (({ s.functionsProp.1 with
              funHeap := s.functionsProp.1.funHeap.write s.functionsProp.2 v
            } : PromptFnHeapState).functionsProp).1.funHeap.read
              ({ s.functionsProp.1 with
                 funHeap := s.functionsProp.1.funHeap.write s.functionsProp.2 v
               } : PromptFnHeapState).functionsProp.2
            = s.funHeap.read s.functionsAddr))
    ∧ (s.returnTypesProp.2 ≠ s.returnTypesAddr
      ∧ s.returnTypesProp.1.tyHeap.read s.returnTypesProp.2
          = s.tyHeap.read s.returnTypesAddr
      ∧ (∀ v : List Ty,
          (s.returnTypesProp.1.tyHeap.write s.returnTypesProp.2 v).read
              s.returnTypesAddr
            = s.tyHeap.read s.returnTypesAddr))
    ∧ (∀ a, s.stopAddr = some a → s.strHeap.valid a →
        ∃ b, s.stopProp.2 = some b ∧ b ≠ a
          ∧ s.stopProp.1.strHeap.read b = s.strHeap.read a
          ∧ (∀ v : List String,
              (s.stopProp.1.strHeap.write b v).read a = s.strHeap.read a)) := by
  simp only [PromptFnHeapState.functionsProp, PromptFnHeapState.returnTypesProp]
  refine ⟨⟨?_, ?_, ?_, ?_⟩, ⟨?_, ?_, ?_⟩, ?_⟩
  · exact Heap.listCopy_addr_ne s.funHeap hfv
  · exact Heap.read_listCopy_new s.funHeap s.functionsAddr
  · intro v
    rw [Heap.read_write_ne _ (Ne.symm (Heap.listCopy_addr_ne s.funHeap hfv)) v]
    exact Heap.read_listCopy_old s.funHeap hfv s.functionsAddr
  · intro v
    rw [Heap.read_listCopy_new]
    rw [Heap.read_write_ne _ (Ne.symm (Heap.listCopy_addr_ne s.funHeap hfv)) v]
    exact Heap.read_listCopy_old s.funHeap hfv s.functionsAddr
  · exact Heap.listCopy_addr_ne s.tyHeap htv
  · exact Heap.read_listCopy_new s.tyHeap s.returnTypesAddr
  · intro v
    rw [Heap.read_write_ne _ (Ne.symm (Heap.listCopy_addr_ne s.tyHeap htv)) v]
    exact Heap.read_listCopy_old s.tyHeap htv s.returnTypesAddr
  · intro a ha hav
    refine ⟨(s.strHeap.listCopy a).2, ?_, ?_, ?_, ?_⟩
    · simp [PromptFnHeapState.stopProp, ha]
    · exact Heap.listCopy_addr_ne s.strHeap hav
    · simp only [PromptFnHeapState.stopProp, ha]
      exact Heap.read_listCopy_new s.strHeap a
    · intro v
      simp only [PromptFnHeapState.stopProp, ha]
      rw [Heap.read_write_ne _ (Ne.symm (Heap.listCopy_addr_ne s.strHeap hav)) v]
      exact Heap.read_listCopy_old s.strHeap hav a

theorem accessor_copies_isolated_witness :
    sampleHeapState.funHeap.valid sampleHeapState.functionsAddr
    ∧ sampleHeapState.functionsProp.2 ≠ sampleHeapState.functionsAddr
    ∧ (sampleHeapState.functionsProp.1.funHeap.write
        sampleHeapState.functionsProp.2 [9]).read sampleHeapState.functionsAddr
      = sampleHeapState.funHeap.read sampleHeapState.functionsAddr :=
  ⟨by decide,
   (accessor_copies_isolated sampleHeapState (by decide) (by decide)).1.1,
   (accessor_copies_isolated sampleHeapState (by decide) (by decide)).1.2.2.1 [9]⟩

/-- Claim C9: the decorator returned by `prompt` dispatches on the decorated
function's kind: a coroutine function yields an `AsyncPromptFunction` and any
non-coroutine function a `PromptFunction`, in both cases built from the
decorated function's own name, parameter list and return annotation together
with the template and options given to `prompt`. -/
theorem prompt_decorator_dispatch {R : Type} (tpl : String)
    (fns : Option (List FuncId)) (stop : Option (List String)) (mr : Int)
    (m : Option (ChatModel R)) (func : PyFunc) :
    (func.isCoroutineFunction = true →
      prompt tpl fns stop mr m func
        = .async (BasePromptFunction.init func.name func.params
            func.returnAnnotation tpl fns stop mr m)) ∧
    (func.isCoroutineFunction = false →
      prompt tpl fns stop mr m func
        = .sync (BasePromptFunction.init func.name func.params
            func.returnAnnotation tpl fns stop mr m)) := by
  constructor
  · intro hc
    simp [prompt, hc]
  · intro hc
    simp [prompt, hc]

theorem prompt_decorator_dispatch_witness :
    prompt (R := Unit) "t" none none 0 none
        { name := "g", params := [], returnAnnotation := Ty.base "str",
          isCoroutineFunction := true }
      = .async (BasePromptFunction.init "g" [] (Ty.base "str") "t"
          none none 0 none) :=
  (prompt_decorator_dispatch "t" none none 0 none
    { name := "g", params := [], returnAnnotation := Ty.base "str",
      isCoroutineFunction := true }).1 rfl

/-- Claim C10: declaring a prompt function with `functions` equal to `None`
normalises the internal functions list to the empty list: the `functions`
property returns an empty list and every completion request a call issues
carries an empty functions list, never `None`. -/
theorem functions_none_normalized_empty {R : Type} (name : String)
    (params : List Param) (rt : Ty) (tpl : String)
    (stop : Option (List String)) (mr : Int) (m : Option (ChatModel R))
    (gm : ChatModel R) (retryImpl : RetryChatModel R → ChatModel R)
    (args : List Value) (kwargs : List (String × Value)) :
    (BasePromptFunction.init name params rt tpl none stop mr m).functions_ = []
    ∧ (BasePromptFunction.init name params rt tpl none stop mr m).functions = []
    ∧ (∀ req ∈ (PromptFunction.call
        (BasePromptFunction.init name params rt tpl none stop mr m)
        gm retryImpl args kwargs).1, req.functions = [])
    ∧ (∀ req ∈ (AsyncPromptFunction.call
        (BasePromptFunction.init name params rt tpl none stop mr m)
        gm retryImpl args kwargs).1, req.functions = []) := by
  refine ⟨rfl, rfl, ?_, ?_⟩
  · intro req hreq
    simp only [PromptFunction.call] at hreq
    rcases hb : bindArgs (BasePromptFunction.init name params rt tpl
        none stop mr m).signature args kwargs with e | bound
    · rw [hb] at hreq
      simp at hreq
    · rw [hb] at hreq
      rcases hf : BasePromptFunction.formatFn
          (BasePromptFunction.init name params rt tpl none stop mr m)
          args kwargs with e | text
      · rw [hf] at hreq
        simp at hreq
      · rw [hf] at hreq
        simp at hreq
        subst hreq
        rfl
  · intro req hreq
    simp only [AsyncPromptFunction.call] at hreq
    rcases hb : bindArgs (BasePromptFunction.init name params rt tpl
        none stop mr m).signature args kwargs with e | bound
    · rw [hb] at hreq
      simp at hreq
    · rw [hb] at hreq
      rcases hf : BasePromptFunction.formatFn
          (BasePromptFunction.init name params rt tpl none stop mr m)
          args kwargs with e | text
      · rw [hf] at hreq
        simp at hreq
      · rw [hf] at hreq
        simp at hreq
        subst hreq
        rfl

theorem functions_none_normalized_empty_witness :
    (BasePromptFunction.init (R := Unit) "f" [] (Ty.base "str") "t"
      none none 0 none).functions = []
    ∧ ∀ req ∈ (PromptFunction.call
        (BasePromptFunction.init (R := Unit) "f" [] (Ty.base "str") "t"
          none none 0 none)
        unitModel (fun r => r.chat_model) [] []).1, req.functions = [] :=
  ⟨(functions_none_normalized_empty "f" [] (Ty.base "str") "t" none 0 none
      unitModel (fun r => r.chat_model) [] []).2.1,
   (functions_none_normalized_empty "f" [] (Ty.base "str") "t" none 0 none
      unitModel (fun r => r.chat_model) [] []).2.2.1⟩
